import Mathlib

/-!
# Pokebot — verification of the game-state engine and session-resilience layer

Shallow embedding of the Pokebot sources:

* `GameEngine` (spawn lifecycle, rarity-weighted draw, catch transaction,
  in-memory cooldown map) from `src/gameEngine.js`;
* the administrative clear action (`POST /admin/clear`) from `src/server.js`;
* the outbound delivery queue (`sendNow` / `pump` in `createChatSender`)
  from `src/server.js`;
* the credential lifecycle (`getValidAccessToken`) from `src/tokenManager.js`;
* the chat ingestion connector (reconnect backoff and the websocket message
  handler) from `src/kickConnector.js`.

Conventions: epoch-millisecond timestamps are `Int`; JavaScript numbers used
as probabilities/weights are `Rat` (all constants involved are exactly
representable and all derived comparisons agree with IEEE double evaluation of
the same expressions); database maps are modelled as total functions with the
default the code reads for an absent row; the single injected `err` flag of
`attemptCatch` models an exception thrown by any query inside the transaction
(the code's `catch` block rolls back every write and rethrows).
-/

namespace Pokebot

/-- A row of the `pokemon` table: id, display name, rarity tier, base catch
rate. Seeded once by `ensureSamplePokemon`. -/
structure Pokemon where
  id : Nat
  name : String
  rarity : String
  baseRate : Rat
deriving Repr, DecidableEq

/-- A row of the `spawns` table: `captured_by` / `capture_at` are `NULL`
until the (unique) capturing update. -/
structure Spawn where
  id : Nat
  pokemonId : Nat
  spawnedAt : Int
  expiresAt : Int
  capturedBy : Option String
  captureAt : Option Int
deriving Repr, DecidableEq

/-- Engine configuration (`opts` of the `GameEngine` constructor):
`spawnDuration` and `cooldownSeconds` are in seconds, `shinyRate` is a
probability. -/
structure Config where
  spawnDuration : Int
  cooldownSeconds : Int
  shinyRate : Rat
deriving Repr

/-- The persisted store plus the process-local cooldown map.

* `spawns`, `catalog` model the `spawns` and `pokemon` tables;
* `users u = true` models a row of `users` with id `u`;
* `pokedex u pid = (count, shinyCount)` models the `pokedex` row keyed by
  `(user_id, pokemon_id)`, with `(0, 0)` for an absent row;
* `cooldowns u` models `this.cooldowns.get(u) ?? 0` (epoch ms, `0` when the
  in-memory `Map` holds no entry). -/
structure EngineState where
  catalog : List Pokemon
  spawns : List Spawn
  users : String → Bool
  pokedex : String → Nat → Nat × Nat
  cooldowns : String → Int

/-- Result value of `attemptCatch` (`{ok: false, reason}` or
`{ok: true, spawnId, pokemon, shiny}`). -/
inductive CatchResult where
  | cooldown : CatchResult
  | noSpawn : CatchResult
  | failed : Rat → Rat → CatchResult
  | caught : Nat → Nat → String → Bool → CatchResult
deriving Repr, DecidableEq

/-- `WHERE s.captured_by IS NULL AND s.expires_at > now` for one row. -/
def isActive (now : Int) (s : Spawn) : Bool :=
  s.capturedBy.isNone && decide (now < s.expiresAt)

/-- `SELECT ... FROM pokemon WHERE id = pid` (primary-key lookup,
`JOIN pokemon p ON s.pokemon_id = p.id` for one spawn row). -/
def findPokemon (cat : List Pokemon) (pid : Nat) : Option Pokemon :=
  cat.find? (fun p => p.id = pid)

/-- The active-spawn query of `getActiveSpawn` / `attemptCatch`:
`SELECT ... FROM spawns s JOIN pokemon p ON s.pokemon_id = p.id WHERE
s.captured_by IS NULL AND s.expires_at > $now ORDER BY spawned_at DESC
LIMIT 1`. A spawn whose `pokemon_id` has no catalog row is invisible to the
join (the foreign key makes this unreachable in practice). Row order is
abstracted to list order: in every reachable store at most one row is active,
so the `ORDER BY ... LIMIT 1` clause never has to choose. -/
def activeJoin (cat : List Pokemon) (now : Int) : List Spawn → Option (Spawn × Pokemon)
  | [] => none
  | s :: rest =>
    if isActive now s then
      match findPokemon cat s.pokemonId with
      | some p => some (s, p)
      | none => activeJoin cat now rest
    else activeJoin cat now rest

/-- `getActiveSpawn()`: the unique non-expired, uncaptured spawn joined with
its pokemon row, or none. Read-only. -/
def getActiveSpawn (st : EngineState) (now : Int) : Option (Spawn × Pokemon) :=
  activeJoin st.catalog now st.spawns

/-- The ball-modifier table of `attemptCatch`:
`{ pokeball: 1.0, greatball: 1.5, ultra: 2.0 }[ball] ?? 1.0`. -/
def ballModifier (ball : String) : Rat :=
  if ball = "pokeball" then 1
  else if ball = "greatball" then 3/2
  else if ball = "ultra" then 2
  else 1

/-- `this.cooldowns.set(userId, nowMs)`. -/
def setCooldown (m : String → Int) (userId : String) (nowMs : Int) : String → Int :=
  fun u => if u = userId then nowMs else m u

/-- The `pokedex` upsert of a successful catch: insert `(1, shiny)` or
`count + 1` / `shiny_count + shiny` on conflict. -/
def bumpPokedex (m : String → Nat → Nat × Nat) (userId : String) (pid : Nat)
    (shiny : Bool) : String → Nat → Nat × Nat :=
  fun u p =>
    if u = userId ∧ p = pid then
      ((m u p).1 + 1, (m u p).2 + (if shiny then 1 else 0))
    else m u p

/-- The capturing `UPDATE spawns SET captured_by = $userId, capture_at = $now
WHERE id = $sid`. -/
def markCaptured (spawns : List Spawn) (sid : Nat) (userId : String)
    (nowMs : Int) : List Spawn :=
  spawns.map (fun t =>
    if t.id = sid then
      { t with capturedBy := some userId, captureAt := some nowMs }
    else t)

/-- `GameEngine.attemptCatch(userId, opts)`.

Deterministic shallow embedding: `nowMs` is the call time (`Date.now()`; the
`new Date()` taken inside the transaction is the same instant), `roll` and
`shinyRoll` are the two `Math.random()` draws, and `err = true` injects an
exception thrown by a query inside the transaction (result `none`: the
transaction is rolled back and the error propagates; no cooldown is
recorded, because every `this.cooldowns.set` in the source sits on a normal
return path after `COMMIT`/`ROLLBACK`).

The winning-roll path mirrors the schema constraint
`spawns.captured_by TEXT REFERENCES users(id)` of `migrations/schema.sql`:
the foreign key is not deferrable, so Postgres checks it at the end of the
capturing `UPDATE spawns SET captured_by = $userId ...` — which the source
issues *before* the `INSERT INTO users ... ON CONFLICT DO NOTHING` upsert.
When the captor has no `users` row at call time, that `UPDATE` throws a
foreign-key violation, the `catch` block rolls the transaction back and
rethrows (result `none`, state unchanged, no cooldown recorded). When the
captor row already exists, the `UPDATE`, the upsert (a no-op) and the
`pokedex` upsert (both of whose foreign keys are then satisfied) commit. -/
def attemptCatch (cfg : Config) (st : EngineState) (userId : String)
    (ball : String) (nowMs : Int) (roll shinyRoll : Rat) (err : Bool) :
    Option CatchResult × EngineState :=
  let last := st.cooldowns userId
  if nowMs - last < cfg.cooldownSeconds * 1000 then
    (some CatchResult.cooldown, st)
  else if err then
    (none, st)
  else
    match activeJoin st.catalog nowMs st.spawns with
    | none =>
      (some CatchResult.noSpawn,
        { st with cooldowns := setCooldown st.cooldowns userId nowMs })
    | some (s, p) =>
      let catchChance := min (99/100 : Rat) (p.baseRate * ballModifier ball)
      let isShiny := decide (shinyRoll < cfg.shinyRate)
      if roll < catchChance then
        if st.users userId then
          (some (CatchResult.caught s.id s.pokemonId p.name isShiny),
            { st with
              spawns := markCaptured st.spawns s.id userId nowMs,
              users := fun u => if u = userId then true else st.users u,
              pokedex := bumpPokedex st.pokedex userId s.pokemonId isShiny,
              cooldowns := setCooldown st.cooldowns userId nowMs })
        else (none, st)
      else
        (some (CatchResult.failed roll catchChance),
          { st with cooldowns := setCooldown st.cooldowns userId nowMs })

/-- The tier→weight table of `spawnOnce`:
`{ common: 1.0, uncommon: 0.6, rare: 0.2, legendary: 0.05 }[r.rarity] ?? 0.1`. -/
def rarityWeight (rarity : String) : Rat :=
  if rarity = "common" then 1
  else if rarity = "uncommon" then 3/5
  else if rarity = "rare" then 1/5
  else if rarity = "legendary" then 1/20
  else 1/10

/-- `Math.max(1, Math.round(weight * 100))`: how many bucket entries one
species contributes. -/
def bucketTimes (rarity : String) : Nat :=
  max 1 (round (rarityWeight rarity * 100)).toNat

/-- The sampling bucket of `spawnOnce`: each catalog row pushes its id
`bucketTimes` times, in row order. -/
def buildBucket (cat : List Pokemon) : List Nat :=
  cat.flatMap (fun p => List.replicate (bucketTimes p.rarity) p.id)

/-- The joined row `spawnOnce` returns for broadcast. -/
structure SpawnRecord where
  id : Nat
  pokemonId : Nat
  spawnedAt : Int
  expiresAt : Int
  name : String
  rarity : String
  baseRate : Rat
deriving Repr, DecidableEq

/-- `GameEngine.spawnOnce(pokemonId)`.

`newId` stands for the fresh `uuidv4()`, `now` for `new Date()` (epoch ms),
and `pick` for `Math.floor(Math.random() * bucket.length)` — the code only
produces `pick < bucket.length`. `pokemonId = some 0` falls through to the
random draw exactly like the source's falsy test `if (!pid)`. For an
explicit id with no catalog row, the `INSERT INTO spawns` itself violates
the `pokemon_id REFERENCES pokemon(id)` foreign key of
`migrations/schema.sql` and throws, so nothing persists and the error
propagates (result `none`, state unchanged); ids drawn from the bucket
always have a catalog row. -/
def spawnOnce (cfg : Config) (st : EngineState) (pokemonId : Option Nat)
    (now : Int) (newId : Nat) (pick : Nat) :
    Option SpawnRecord × EngineState :=
  match activeJoin st.catalog now st.spawns with
  | some _ => (none, st)
  | none =>
    let given : Option Nat :=
      match pokemonId with
      | some pid => if pid = 0 then none else some pid
      | none => none
    let drawn : Option Nat :=
      match given with
      | some pid => some pid
      | none =>
        if st.catalog.isEmpty then none
        else (buildBucket st.catalog).get? pick
    match drawn with
    | none => (none, st)
    | some pid =>
      match findPokemon st.catalog pid with
      | none => (none, st)
      | some p =>
        (some { id := newId, pokemonId := pid, spawnedAt := now,
                expiresAt := now + cfg.spawnDuration * 1000,
                name := p.name, rarity := p.rarity, baseRate := p.baseRate },
          { st with spawns :=
            { id := newId, pokemonId := pid, spawnedAt := now,
              expiresAt := now + cfg.spawnDuration * 1000,
              capturedBy := none, captureAt := none } :: st.spawns })

/-- The administrative clear (`POST /admin/clear` in `src/server.js`):
`UPDATE spawns SET expires_at = $now WHERE captured_by IS NULL AND
expires_at > $now` — forces `expiry = now` on every active spawn, touching
nothing else. -/
def clearSpawns (now : Int) (spawns : List Spawn) : List Spawn :=
  spawns.map (fun s => if isActive now s then { s with expiresAt := now } else s)

/-- One scripted `attemptCatch` call for sequence runs. -/
structure CatchReq where
  userId : String
  ball : String
  nowMs : Int
  roll : Rat
  shinyRoll : Rat
  err : Bool
deriving Repr

/-- Run a sequence of `attemptCatch` calls against one engine, returning the
per-call results in order and the final state. The store serializes
concurrent attempts through its row lock, so any interleaving of calls is
one such sequence. -/
def runCatches (cfg : Config) (st : EngineState) :
    List CatchReq → List (Option CatchResult) × EngineState
  | [] => ([], st)
  | r :: rs =>
    let step := attemptCatch cfg st r.userId r.ball r.nowMs r.roll r.shinyRoll r.err
    let rest := runCatches cfg step.2 rs
    (step.1 :: rest.1, rest.2)

/-- Did this call return `ok: true`? -/
def isCaughtRes : Option CatchResult → Bool
  | some (CatchResult.caught _ _ _ _) => true
  | _ => false

/-! ### Concrete fixtures used by witnesses and counterexamples -/

/-- Default configuration of `main` in `src/server.js`. -/
def cCfg : Config := { spawnDuration := 30, cooldownSeconds := 5, shinyRate := 1/4096 }

/-- A common species with the seeded base rate of `ensureSamplePokemon`. -/
def cPoke : Pokemon := { id := 1, name := "Bulbasaur", rarity := "common", baseRate := 7/10 }

/-- A legendary species with the seeded base rate. -/
def cMewtwo : Pokemon := { id := 2, name := "Mewtwo", rarity := "legendary", baseRate := 1/100 }

/-- A two-species catalog: a common and a legendary. -/
def cCat : List Pokemon := [cPoke, cMewtwo]

/-- A spawn of species 1, live from 0 to 20000 ms. -/
def cSpawn : Spawn :=
  { id := 11, pokemonId := 1, spawnedAt := 0, expiresAt := 20000,
    capturedBy := none, captureAt := none }

/-- State with one active spawn and an empty cooldown map. -/
def cSt : EngineState :=
  { catalog := cCat, spawns := [cSpawn], users := fun _ => false,
    pokedex := fun _ _ => (0, 0), cooldowns := fun _ => 0 }

/-- State with no spawns at all. -/
def cStEmpty : EngineState :=
  { catalog := cCat, spawns := [], users := fun _ => false,
    pokedex := fun _ _ => (0, 0), cooldowns := fun _ => 0 }

/-- State with one active spawn where alice last attempted at 8000 ms. -/
def cStCd : EngineState :=
  { catalog := cCat, spawns := [cSpawn], users := fun _ => false,
    pokedex := fun _ _ => (0, 0),
    cooldowns := fun u => if u = "alice" then 8000 else 0 }

/-! ### Helper lemmas on the engine -/

theorem count_buildBucket_of_not_mem (cat : List Pokemon) (x : Nat)
    (hx : x ∉ cat.map Pokemon.id) : (buildBucket cat).count x = 0 := by
  induction cat with
  | nil => rfl
  | cons q rest ih =>
    simp only [List.map_cons, List.mem_cons, not_or] at hx
    simp only [buildBucket, List.flatMap_cons, List.count_append]
    rw [show (rest.flatMap fun p => List.replicate (bucketTimes p.rarity) p.id) =
        buildBucket rest from rfl, ih hx.2]
    simp [List.count_replicate, hx.1, Ne.symm hx.1]

theorem count_buildBucket (cat : List Pokemon)
    (hnd : (cat.map Pokemon.id).Nodup) (p : Pokemon) (hp : p ∈ cat) :
    (buildBucket cat).count p.id = bucketTimes p.rarity := by
  induction cat with
  | nil => cases hp
  | cons q rest ih =>
    simp only [List.map_cons, List.nodup_cons] at hnd
    simp only [buildBucket, List.flatMap_cons, List.count_append]
    rw [show (rest.flatMap fun t => List.replicate (bucketTimes t.rarity) t.id) =
        buildBucket rest from rfl]
    rcases List.mem_cons.mp hp with h | h
    · subst h
      rw [count_buildBucket_of_not_mem rest p.id hnd.1]
      simp [List.count_replicate]
    · have hne : p.id ≠ q.id := by
        intro he
        exact hnd.1 (he ▸ List.mem_map_of_mem Pokemon.id h)
      have h0 : List.count p.id (List.replicate (bucketTimes q.rarity) q.id) = 0 := by
        simp [List.count_replicate, Ne.symm hne]
      rw [h0, ih hnd.2 h, Nat.zero_add]

theorem mem_buildBucket_pokemon (cat : List Pokemon) (x : Nat)
    (hx : x ∈ buildBucket cat) : ∃ p, findPokemon cat x = some p := by
  rcases List.mem_flatMap.mp hx with ⟨q, hq, hrep⟩
  have hid : x = q.id := (List.mem_replicate.mp hrep).2
  have : (cat.find? (fun p => p.id = x)).isSome := by
    rw [List.find?_isSome]
    exact ⟨q, hq, by simp [hid]⟩
  rcases Option.isSome_iff_exists.mp this with ⟨p, hp⟩
  exact ⟨p, hp⟩

/-! ### C9 — rarity-weighted draw -/

/-- **C9.** In the rarity-weighted draw of `spawnOnce`, every species
contributes `max 1 (round (100 * weight))` entries to the sampling bucket,
where the weight is 1 for `common`, 3/5 for `uncommon`, 1/5 for `rare`,
1/20 for `legendary` and 1/10 for any other tier — that is 100, 60, 20, 5
(and 10) entries respectively — so the relative draw odds reproduce the
tier weights exactly, and equally weighted species contribute equally many
bucket entries, hence are equally likely under the uniform index draw. -/
theorem spawnOnce_bucket_weights (cat : List Pokemon)
    (hnd : (cat.map Pokemon.id).Nodup) (p : Pokemon) (hp : p ∈ cat) :
    (buildBucket cat).count p.id =
        max 1 (round ((100 : Rat) * rarityWeight p.rarity)).toNat
    ∧ rarityWeight "common" = 1 ∧ rarityWeight "uncommon" = 3/5
    ∧ rarityWeight "rare" = 1/5 ∧ rarityWeight "legendary" = 1/20
    ∧ (∀ r, r ≠ "common" → r ≠ "uncommon" → r ≠ "rare" → r ≠ "legendary" →
        rarityWeight r = 1/10)
    ∧ bucketTimes "common" = 100 ∧ bucketTimes "uncommon" = 60
    ∧ bucketTimes "rare" = 20 ∧ bucketTimes "legendary" = 5
    ∧ (∀ r, r ≠ "common" → r ≠ "uncommon" → r ≠ "rare" → r ≠ "legendary" →
        bucketTimes r = 10)
    ∧ (∀ q, q ∈ cat → rarityWeight q.rarity = rarityWeight p.rarity →
        (buildBucket cat).count q.id = (buildBucket cat).count p.id) := by
  refine ⟨?_, rfl, rfl, rfl, rfl, ?_,
    by rw [bucketTimes, show rarityWeight "common" = 1 from rfl]; norm_num [round_eq]; rfl,
    by rw [bucketTimes, show rarityWeight "uncommon" = 3/5 from rfl]; norm_num [round_eq]; rfl,
    by rw [bucketTimes, show rarityWeight "rare" = 1/5 from rfl]; norm_num [round_eq]; rfl,
    by rw [bucketTimes, show rarityWeight "legendary" = 1/20 from rfl]; norm_num [round_eq]; rfl,
    ?_, ?_⟩
  · rw [count_buildBucket cat hnd p hp, bucketTimes, mul_comm]
  · intro r h1 h2 h3 h4
    simp [rarityWeight, h1, h2, h3, h4]
  · intro r h1 h2 h3 h4
    rw [bucketTimes, show rarityWeight r = 1/10 by simp [rarityWeight, h1, h2, h3, h4]]
    norm_num [round_eq]
    rfl
  · intro q hq hw
    rw [count_buildBucket cat hnd q hq, count_buildBucket cat hnd p hp,
      bucketTimes, bucketTimes, hw]

/-- Witness for C9 at the concrete two-species catalog. -/
theorem spawnOnce_bucket_weights_witness :
    (buildBucket cCat).count 1 = max 1 (round ((100 : Rat) * rarityWeight "common")).toNat
    ∧ bucketTimes "legendary" = 5 := by
  have h := spawnOnce_bucket_weights cCat (by decide) cPoke (by simp [cCat])
  exact ⟨h.1, h.2.2.2.2.2.2.2.2.2.1⟩

/-! ### Exhaustive case analysis of `attemptCatch` -/

/-- The five return paths of `attemptCatch`, each with its exact result and
post-state, exactly one of which applies to any call. -/
theorem attemptCatch_cases (cfg : Config) (st : EngineState) (userId ball : String)
    (nowMs : Int) (roll shinyRoll : Rat) (err : Bool) :
    (nowMs - st.cooldowns userId < cfg.cooldownSeconds * 1000 ∧
      attemptCatch cfg st userId ball nowMs roll shinyRoll err =
        (some CatchResult.cooldown, st))
    ∨ (¬ nowMs - st.cooldowns userId < cfg.cooldownSeconds * 1000 ∧ err = true ∧
      attemptCatch cfg st userId ball nowMs roll shinyRoll err = (none, st))
    ∨ (¬ nowMs - st.cooldowns userId < cfg.cooldownSeconds * 1000 ∧ err = false ∧
      activeJoin st.catalog nowMs st.spawns = none ∧
      attemptCatch cfg st userId ball nowMs roll shinyRoll err =
        (some CatchResult.noSpawn,
          { st with cooldowns := setCooldown st.cooldowns userId nowMs }))
    ∨ (∃ s p, ¬ nowMs - st.cooldowns userId < cfg.cooldownSeconds * 1000 ∧ err = false ∧
      activeJoin st.catalog nowMs st.spawns = some (s, p) ∧
      roll < min (99/100 : Rat) (p.baseRate * ballModifier ball) ∧
      st.users userId = true ∧
      attemptCatch cfg st userId ball nowMs roll shinyRoll err =
        (some (CatchResult.caught s.id s.pokemonId p.name
            (decide (shinyRoll < cfg.shinyRate))),
          { st with
            spawns := markCaptured st.spawns s.id userId nowMs,
            users := fun u => if u = userId then true else st.users u,
            pokedex := bumpPokedex st.pokedex userId s.pokemonId
              (decide (shinyRoll < cfg.shinyRate)),
            cooldowns := setCooldown st.cooldowns userId nowMs }))
    ∨ (∃ s p, ¬ nowMs - st.cooldowns userId < cfg.cooldownSeconds * 1000 ∧ err = false ∧
      activeJoin st.catalog nowMs st.spawns = some (s, p) ∧
      ¬ roll < min (99/100 : Rat) (p.baseRate * ballModifier ball) ∧
      attemptCatch cfg st userId ball nowMs roll shinyRoll err =
        (some (CatchResult.failed roll (min (99/100 : Rat) (p.baseRate * ballModifier ball))),
          { st with cooldowns := setCooldown st.cooldowns userId nowMs }))
    ∨ (∃ s p, ¬ nowMs - st.cooldowns userId < cfg.cooldownSeconds * 1000 ∧ err = false ∧
      activeJoin st.catalog nowMs st.spawns = some (s, p) ∧
      roll < min (99/100 : Rat) (p.baseRate * ballModifier ball) ∧
      st.users userId = false ∧
      attemptCatch cfg st userId ball nowMs roll shinyRoll err = (none, st)) := by
  by_cases h1 : nowMs - st.cooldowns userId < cfg.cooldownSeconds * 1000
  · exact Or.inl ⟨h1, by unfold attemptCatch; rw [if_pos h1]⟩
  · by_cases h2 : err = true
    · exact Or.inr (Or.inl ⟨h1, h2, by unfold attemptCatch; rw [if_neg h1, if_pos h2]⟩)
    · have h2f : err = false := by simpa using h2
      cases hact : activeJoin st.catalog nowMs st.spawns with
      | none =>
        refine Or.inr (Or.inr (Or.inl ⟨h1, h2f, rfl, ?_⟩))
        unfold attemptCatch
        rw [if_neg h1, h2f]
        simp only [Bool.false_eq_true, if_false, hact]
      | some sp =>
        obtain ⟨s, p⟩ := sp
        by_cases h3 : roll < min (99/100 : Rat) (p.baseRate * ballModifier ball)
        · by_cases h4 : st.users userId = true
          · refine Or.inr (Or.inr (Or.inr (Or.inl ⟨s, p, h1, h2f, rfl, h3, h4, ?_⟩)))
            unfold attemptCatch
            rw [if_neg h1, h2f]
            simp only [Bool.false_eq_true, if_false, hact]
            rw [if_pos h3, if_pos h4]
          · have h4f : st.users userId = false := by simpa using h4
            refine Or.inr (Or.inr (Or.inr (Or.inr (Or.inr
              ⟨s, p, h1, h2f, rfl, h3, h4f, ?_⟩))))
            unfold attemptCatch
            rw [if_neg h1, h2f]
            simp only [Bool.false_eq_true, if_false, hact]
            rw [if_pos h3]
            simp only [h4f, Bool.false_eq_true, if_false]
        · refine Or.inr (Or.inr (Or.inr (Or.inr (Or.inl ⟨s, p, h1, h2f, rfl, h3, ?_⟩))))
          unfold attemptCatch
          rw [if_neg h1, h2f]
          simp only [Bool.false_eq_true, if_false, hact]
          rw [if_neg h3]

/-! ### C3 — catch chance and roll semantics: the success path is dead code -/

theorem shiny_half_false : decide ((1/2 : Rat) < cCfg.shinyRate) = false := by
  rw [show cCfg.shinyRate = 1/4096 from rfl, decide_eq_false_iff_not]
  norm_num

/-- **C10.** An off-cooldown `attemptCatch` that finds no active spawn
returns `no_spawn` yet records the attempt timestamp, so a follow-up
attempt by the same participant within `cooldownSeconds` is rejected with
reason `cooldown` even though no spawn ever existed. -/
theorem attemptCatch_noSpawn_arms_cooldown (cfg : Config) (st : EngineState)
    (userId ball ball2 : String) (nowMs nowMs2 : Int)
    (roll shinyRoll roll2 shinyRoll2 : Rat) (err2 : Bool)
    (hcd : ¬ nowMs - st.cooldowns userId < cfg.cooldownSeconds * 1000)
    (hns : getActiveSpawn st nowMs = none)
    (hsoon : nowMs2 - nowMs < cfg.cooldownSeconds * 1000) :
    (attemptCatch cfg st userId ball nowMs roll shinyRoll false).1 = some CatchResult.noSpawn
    ∧ (attemptCatch cfg st userId ball nowMs roll shinyRoll false).2.cooldowns userId = nowMs
    ∧ (attemptCatch cfg (attemptCatch cfg st userId ball nowMs roll shinyRoll false).2
        userId ball2 nowMs2 roll2 shinyRoll2 err2).1 = some CatchResult.cooldown := by
  rw [getActiveSpawn] at hns
  have heq : attemptCatch cfg st userId ball nowMs roll shinyRoll false =
      (some CatchResult.noSpawn,
        { st with cooldowns := setCooldown st.cooldowns userId nowMs }) := by
    rcases attemptCatch_cases cfg st userId ball nowMs roll shinyRoll false with
      ⟨h, _⟩ | ⟨_, h, _⟩ | ⟨_, _, _, h⟩ | ⟨s', p', _, _, hact', _, _, _⟩ |
      ⟨s', p', _, _, hact', _, _⟩ | ⟨s', p', _, _, hact', _, _, _⟩
    · exact absurd h hcd
    · exact absurd h (by simp)
    · exact h
    · rw [hns] at hact'; cases hact'
    · rw [hns] at hact'; cases hact'
    · rw [hns] at hact'; cases hact'
  refine ⟨by rw [heq], by rw [heq]; simp [setCooldown], ?_⟩
  rw [heq]
  have hcd2 : nowMs2 -
      (({ st with cooldowns := setCooldown st.cooldowns userId nowMs } :
        EngineState).cooldowns userId) < cfg.cooldownSeconds * 1000 := by
    simpa [setCooldown] using hsoon
  rcases attemptCatch_cases cfg
      { st with cooldowns := setCooldown st.cooldowns userId nowMs }
      userId ball2 nowMs2 roll2 shinyRoll2 err2 with
    ⟨_, h⟩ | ⟨h, _, _⟩ | ⟨h, _, _, _⟩ | ⟨s', p', h, _, _, _, _, _⟩ |
    ⟨s', p', h, _, _, _, _⟩ | ⟨s', p', h, _, _, _, _, _⟩
  · rw [h]
  · exact absurd hcd2 h
  · exact absurd hcd2 h
  · exact absurd hcd2 h
  · exact absurd hcd2 h
  · exact absurd hcd2 h

/-- Witness for C10: empty spawn store, attempt at 10000 ms, follow-up at
12000 ms with a 5 s cooldown. -/
theorem attemptCatch_noSpawn_arms_cooldown_witness :
    (attemptCatch cCfg cStEmpty "alice" "pokeball" 10000 (1/2) (1/2) false).1
      = some CatchResult.noSpawn
    ∧ (attemptCatch cCfg cStEmpty "alice" "pokeball" 10000 (1/2) (1/2) false).2.cooldowns
        "alice" = 10000
    ∧ (attemptCatch cCfg
        (attemptCatch cCfg cStEmpty "alice" "pokeball" 10000 (1/2) (1/2) false).2
        "alice" "pokeball" 12000 (1/2) (1/2) false).1 = some CatchResult.cooldown :=
  attemptCatch_noSpawn_arms_cooldown cCfg cStEmpty "alice" "pokeball" "pokeball"
    10000 12000 (1/2) (1/2) (1/2) (1/2) false (by decide) rfl (by decide)

/-! ### C2 — when the cooldown timestamp is (not) recorded -/

/-- **C2 is false on the code**: a cooldown-rejected attempt does *not*
record the attempt timestamp. Alice last attempted at 8000 ms; her attempt
at 10000 ms (2 s later, cooldown 5 s) returns `cooldown` and her stored
timestamp is still 8000, not 10000. Likewise an error aborting the
transaction (`err = true`) records nothing. -/
theorem attemptCatch_cooldown_refresh_cex :
    (attemptCatch cCfg cStCd "alice" "pokeball" 10000 (1/2) (1/2) false).1
      = some CatchResult.cooldown
    ∧ (attemptCatch cCfg cStCd "alice" "pokeball" 10000 (1/2) (1/2) false).2.cooldowns
        "alice" = 8000
    ∧ (8000 : Int) ≠ 10000
    ∧ (attemptCatch cCfg cSt "bob" "pokeball" 10000 (1/2) (1/2) true).1 = none
    ∧ (attemptCatch cCfg cSt "bob" "pokeball" 10000 (1/2) (1/2) true).2.cooldowns
        "bob" = 0
    ∧ (0 : Int) ≠ 10000 :=
  ⟨rfl, rfl, by decide, rfl, rfl, by decide⟩

/-- **C2 (amended).** `attemptCatch` records the participant's attempt
timestamp exactly on the calls that return `no_spawn`, `failed` or success:
a call rejected with reason `cooldown` returns with the whole state
unchanged (the cooldown window is *not* refreshed), and when an error
aborts the catch transaction the state is likewise returned unchanged (no
cooldown timestamp is recorded). -/
theorem attemptCatch_cooldown_recording (cfg : Config) (st : EngineState)
    (userId ball : String) (nowMs : Int) (roll shinyRoll : Rat) (err : Bool) :
    ((attemptCatch cfg st userId ball nowMs roll shinyRoll err).1
        = some CatchResult.cooldown →
      (attemptCatch cfg st userId ball nowMs roll shinyRoll err).2 = st)
    ∧ ((attemptCatch cfg st userId ball nowMs roll shinyRoll err).1 = none →
      (attemptCatch cfg st userId ball nowMs roll shinyRoll err).2 = st)
    ∧ ((attemptCatch cfg st userId ball nowMs roll shinyRoll err).1
        ≠ some CatchResult.cooldown →
      (attemptCatch cfg st userId ball nowMs roll shinyRoll err).1 ≠ none →
      (attemptCatch cfg st userId ball nowMs roll shinyRoll err).2.cooldowns userId = nowMs
      ∧ ∀ v, v ≠ userId →
        (attemptCatch cfg st userId ball nowMs roll shinyRoll err).2.cooldowns v
          = st.cooldowns v) := by
  rcases attemptCatch_cases cfg st userId ball nowMs roll shinyRoll err with
    ⟨_, h⟩ | ⟨_, _, h⟩ | ⟨_, _, _, h⟩ | ⟨s', p', _, _, _, _, _, h⟩ |
    ⟨s', p', _, _, _, _, h⟩ | ⟨s', p', _, _, _, _, _, h⟩
  · rw [h]
    refine ⟨fun _ => rfl, fun hc => absurd hc (by simp), fun hc _ => absurd rfl hc⟩
  · rw [h]
    refine ⟨fun hc => absurd hc (by simp), fun _ => rfl, fun _ hc => absurd rfl hc⟩
  · rw [h]
    refine ⟨fun hc => absurd hc (by simp), fun hc => absurd hc (by simp),
      fun _ _ => ⟨?_, ?_⟩⟩
    · simp [setCooldown]
    · intro v hv; simp [setCooldown, hv]
  · rw [h]
    refine ⟨fun hc => absurd hc (by simp), fun hc => absurd hc (by simp),
      fun _ _ => ⟨?_, ?_⟩⟩
    · simp [setCooldown]
    · intro v hv; simp [setCooldown, hv]
  · rw [h]
    refine ⟨fun hc => absurd hc (by simp), fun hc => absurd hc (by simp),
      fun _ _ => ⟨?_, ?_⟩⟩
    · simp [setCooldown]
    · intro v hv; simp [setCooldown, hv]
  · rw [h]
    refine ⟨fun hc => absurd hc (by simp), fun _ => rfl, fun _ hc => absurd rfl hc⟩

/-- Witness for the amended C2: a `no_spawn` return records 10000 for alice
and leaves bob's entry alone. -/
theorem attemptCatch_cooldown_recording_witness :
    (attemptCatch cCfg cStEmpty "alice" "pokeball" 10000 (1/2) (1/2) false).2.cooldowns
        "alice" = 10000
    ∧ (attemptCatch cCfg cStEmpty "alice" "pokeball" 10000 (1/2) (1/2) false).2.cooldowns
        "bob" = 0 := by
  have h := (attemptCatch_cooldown_recording cCfg cStEmpty "alice" "pokeball"
    10000 (1/2) (1/2) false).2.2 (by decide) (by decide)
  exact ⟨h.1, (h.2 "bob" (by decide)).trans rfl⟩

/-! ### C4 — spawnOnce -/

/-- **C4.** `spawnOnce` returns the no-op signal and leaves the store
unchanged in every call made while an active spawn exists; otherwise it
selects a species (the explicit id when given, else the rarity-weighted
draw), inserts a new spawn with `expiry = now + spawnDurationSeconds`, and
returns the fully populated record including species name and rarity. -/
theorem spawnOnce_spec (cfg : Config) (st : EngineState) (now : Int)
    (newId pick : Nat) :
    (∀ pokemonId, getActiveSpawn st now ≠ none →
      spawnOnce cfg st pokemonId now newId pick = (none, st))
    ∧ (∀ pid p, getActiveSpawn st now = none → pid ≠ 0 →
        findPokemon st.catalog pid = some p →
        spawnOnce cfg st (some pid) now newId pick =
          (some { id := newId, pokemonId := pid, spawnedAt := now,
                  expiresAt := now + cfg.spawnDuration * 1000,
                  name := p.name, rarity := p.rarity, baseRate := p.baseRate },
            { st with spawns :=
              { id := newId, pokemonId := pid, spawnedAt := now,
                expiresAt := now + cfg.spawnDuration * 1000,
                capturedBy := none, captureAt := none } :: st.spawns }))
    ∧ (getActiveSpawn st now = none → st.catalog ≠ [] →
        pick < (buildBucket st.catalog).length →
        ∃ pid p, (buildBucket st.catalog).get? pick = some pid ∧
          findPokemon st.catalog pid = some p ∧
          spawnOnce cfg st none now newId pick =
            (some { id := newId, pokemonId := pid, spawnedAt := now,
                    expiresAt := now + cfg.spawnDuration * 1000,
                    name := p.name, rarity := p.rarity, baseRate := p.baseRate },
              { st with spawns :=
                { id := newId, pokemonId := pid, spawnedAt := now,
                  expiresAt := now + cfg.spawnDuration * 1000,
                  capturedBy := none, captureAt := none } :: st.spawns })) := by
  refine ⟨?_, ?_, ?_⟩
  · intro pokemonId hne
    rw [getActiveSpawn] at hne
    unfold spawnOnce
    cases hact : activeJoin st.catalog now st.spawns with
    | none => exact absurd hact hne
    | some sp => rfl
  · intro pid p hns h0 hfind
    rw [getActiveSpawn] at hns
    unfold spawnOnce
    simp only [hns, if_neg h0, hfind]
  · intro hns hne hlt
    rw [getActiveSpawn] at hns
    obtain ⟨pid, hpid⟩ : ∃ pid, (buildBucket st.catalog).get? pick = some pid :=
      ⟨_, List.get?_eq_get hlt⟩
    have hmem : pid ∈ buildBucket st.catalog := List.get?_mem hpid
    obtain ⟨p, hp⟩ := mem_buildBucket_pokemon _ _ hmem
    refine ⟨pid, p, hpid, hp, ?_⟩
    have hempty : st.catalog.isEmpty = false := by
      cases hc : st.catalog with
      | nil => exact absurd hc hne
      | cons a l => rfl
    unfold spawnOnce
    simp only [hns, hempty, Bool.false_eq_true, if_false, hpid, hp]

/-- The spawn row inserted in the C4 witness. -/
def cNewSpawn : Spawn :=
  { id := 77, pokemonId := 2, spawnedAt := 10000, expiresAt := 40000,
    capturedBy := none, captureAt := none }

/-- Witness for C4: with the active spawn present the call is a no-op; on
an empty store an explicit id 2 inserts a Mewtwo spawn expiring 30 s
later and returns its populated record. -/
theorem spawnOnce_spec_witness :
    spawnOnce cCfg cSt (some 2) 10000 77 0 = (none, cSt)
    ∧ spawnOnce cCfg cStEmpty (some 2) 10000 77 0 =
        (some { id := 77, pokemonId := 2, spawnedAt := 10000, expiresAt := 40000,
                name := "Mewtwo", rarity := "legendary", baseRate := 1/100 },
          { cStEmpty with spawns := [cNewSpawn] }) := by
  constructor
  · exact (spawnOnce_spec cCfg cSt 10000 77 0).1 (some 2)
      (by rw [show getActiveSpawn cSt 10000 = some (cSpawn, cPoke) from rfl]; simp)
  · have h := (spawnOnce_spec cCfg cStEmpty 10000 77 0).2.1 2 cMewtwo rfl
      (by decide) rfl
    rw [h]
    rfl

/-! ### Helper lemmas for the spawn lifecycle (C1) -/

theorem activeJoin_some (cat : List Pokemon) (now : Int) (l : List Spawn)
    (s : Spawn) (p : Pokemon) (h : activeJoin cat now l = some (s, p)) :
    s ∈ l ∧ isActive now s = true ∧ findPokemon cat s.pokemonId = some p := by
  induction l with
  | nil => cases h
  | cons t rest ih =>
    cases ha : isActive now t with
    | false =>
      simp only [activeJoin, ha, Bool.false_eq_true, if_false] at h
      obtain ⟨h1, h2, h3⟩ := ih h
      exact ⟨List.mem_cons_of_mem _ h1, h2, h3⟩
    | true =>
      simp only [activeJoin, ha, if_true] at h
      cases hf : findPokemon cat t.pokemonId with
      | none =>
        rw [hf] at h
        obtain ⟨h1, h2, h3⟩ := ih h
        exact ⟨List.mem_cons_of_mem _ h1, h2, h3⟩
      | some q =>
        rw [hf] at h
        have hsp := Option.some.inj h
        rw [Prod.mk.injEq] at hsp
        obtain ⟨h1, h2⟩ := hsp
        subst h1; subst h2
        exact ⟨List.mem_cons_self _ _, ha, hf⟩

theorem activeJoin_none_of_captured (cat : List Pokemon) (now : Int)
    (l : List Spawn) (h : ∀ t, t ∈ l → t.capturedBy ≠ none) :
    activeJoin cat now l = none := by
  induction l with
  | nil => rfl
  | cons t rest ih =>
    have ht : isActive now t = false := by
      have hcap := h t (List.mem_cons_self t rest)
      unfold isActive
      cases hc : t.capturedBy with
      | none => exact absurd hc hcap
      | some u => rfl
    simp only [activeJoin, ht, Bool.false_eq_true, if_false]
    exact ih (fun t ht => h t (List.mem_cons_of_mem _ ht))

theorem mem_markCaptured_of_ne (l : List Spawn) (sid : Nat) (u : String)
    (n : Int) (t : Spawn) (ht : t ∈ l) (hne : t.id ≠ sid) :
    t ∈ markCaptured l sid u n := by
  have : (if t.id = sid then
      { t with capturedBy := some u, captureAt := some n } else t) = t := if_neg hne
  exact this ▸ List.mem_map_of_mem _ ht

theorem markCaptured_singleton (s : Spawn) (u : String) (n : Int) :
    markCaptured [s] s.id u n = [{ s with capturedBy := some u, captureAt := some n }] := by
  simp [markCaptured]

theorem spawnOnce_spawns_shape (cfg : Config) (st : EngineState)
    (pokemonId : Option Nat) (now : Int) (newId pick : Nat) :
    (spawnOnce cfg st pokemonId now newId pick).2.spawns = st.spawns
    ∨ ∃ sp, (spawnOnce cfg st pokemonId now newId pick).2.spawns = sp :: st.spawns := by
  unfold spawnOnce
  cases activeJoin st.catalog now st.spawns with
  | some sp => left; rfl
  | none =>
    dsimp only
    split
    · left; rfl
    · split
      · left; rfl
      · right; exact ⟨_, rfl⟩

theorem attemptCatch_spawns_of_not_caught (cfg : Config) (st : EngineState)
    (userId ball : String) (nowMs : Int) (roll shinyRoll : Rat) (err : Bool)
    (h : isCaughtRes (attemptCatch cfg st userId ball nowMs roll shinyRoll err).1 = false) :
    (attemptCatch cfg st userId ball nowMs roll shinyRoll err).2.spawns = st.spawns := by
  rcases attemptCatch_cases cfg st userId ball nowMs roll shinyRoll err with
    ⟨_, heq⟩ | ⟨_, _, heq⟩ | ⟨_, _, _, heq⟩ | ⟨s, p, _, _, _, _, _, heq⟩ |
    ⟨s, p, _, _, _, _, heq⟩ | ⟨s, p, _, _, _, _, _, heq⟩
  · rw [heq]
  · rw [heq]
  · rw [heq]
  · rw [heq] at h; cases h
  · rw [heq]
  · rw [heq]

theorem attemptCatch_caught_shape (cfg : Config) (st : EngineState)
    (userId ball : String) (nowMs : Int) (roll shinyRoll : Rat) (err : Bool)
    (sid pidd : Nat) (nm : String) (sh : Bool)
    (h : (attemptCatch cfg st userId ball nowMs roll shinyRoll err).1
      = some (CatchResult.caught sid pidd nm sh)) :
    ∃ s p, activeJoin st.catalog nowMs st.spawns = some (s, p)
      ∧ s.capturedBy = none ∧ nowMs < s.expiresAt ∧ sid = s.id
      ∧ st.users userId = true
      ∧ (attemptCatch cfg st userId ball nowMs roll shinyRoll err).2.spawns
          = markCaptured st.spawns s.id userId nowMs := by
  rcases attemptCatch_cases cfg st userId ball nowMs roll shinyRoll err with
    ⟨_, heq⟩ | ⟨_, _, heq⟩ | ⟨_, _, _, heq⟩ | ⟨s, p, _, _, hact, _, hus, heq⟩ |
    ⟨s, p, _, _, _, _, heq⟩ | ⟨s, p, _, _, _, _, _, heq⟩
  · rw [heq] at h; cases h
  · rw [heq] at h; cases h
  · rw [heq] at h; cases h
  · obtain ⟨_, hax, _⟩ := activeJoin_some st.catalog nowMs st.spawns s p hact
    have hax2 : s.capturedBy = none ∧ nowMs < s.expiresAt := by
      have h' := hax
      unfold isActive at h'
      simp only [Bool.and_eq_true, decide_eq_true_eq, Option.isNone_iff_eq_none] at h'
      exact h'
    obtain ⟨hcap, hexp⟩ := hax2
    have hsid : sid = s.id := by
      rw [heq] at h
      cases h
      rfl
    exact ⟨s, p, hact, hcap, hexp, hsid, hus, by rw [heq]⟩
  · rw [heq] at h; cases h
  · rw [heq] at h; cases h

theorem attemptCatch_preserves_terminal (cfg : Config) (st : EngineState)
    (userId ball : String) (nowMs : Int) (roll shinyRoll : Rat) (err : Bool)
    (hnd : (st.spawns.map Spawn.id).Nodup) (t : Spawn) (ht : t ∈ st.spawns)
    (hterm : t.capturedBy ≠ none ∨ t.expiresAt ≤ nowMs) :
    t ∈ (attemptCatch cfg st userId ball nowMs roll shinyRoll err).2.spawns := by
  cases hc : isCaughtRes (attemptCatch cfg st userId ball nowMs roll shinyRoll err).1 with
  | false =>
    rw [attemptCatch_spawns_of_not_caught cfg st userId ball nowMs roll shinyRoll err hc]
    exact ht
  | true =>
    have hres : ∃ sid pidd nm sh,
        (attemptCatch cfg st userId ball nowMs roll shinyRoll err).1
          = some (CatchResult.caught sid pidd nm sh) := by
      cases hr : (attemptCatch cfg st userId ball nowMs roll shinyRoll err).1 with
      | none => rw [hr] at hc; cases hc
      | some res =>
        cases res with
        | cooldown => rw [hr] at hc; cases hc
        | noSpawn => rw [hr] at hc; cases hc
        | failed a b => rw [hr] at hc; cases hc
        | caught sid pidd nm sh => exact ⟨sid, pidd, nm, sh, rfl⟩
    obtain ⟨sid, pidd, nm, sh, hr⟩ := hres
    obtain ⟨s, p, hact, hcap, hexp, _, _, hspawns⟩ :=
      attemptCatch_caught_shape cfg st userId ball nowMs roll shinyRoll err
        sid pidd nm sh hr
    obtain ⟨hsmem, _, _⟩ := activeJoin_some st.catalog nowMs st.spawns s p hact
    rw [hspawns]
    have hne : t.id ≠ s.id := by
      intro he
      have := List.inj_on_of_nodup_map hnd ht hsmem he
      subst this
      rcases hterm with h1 | h1
      · exact h1 hcap
      · exact absurd hexp (not_lt.mpr h1)
    exact mem_markCaptured_of_ne st.spawns s.id userId nowMs t ht hne

theorem isCaughtRes_eq_true (o : Option CatchResult) (h : isCaughtRes o = true) :
    ∃ sid pidd nm sh, o = some (CatchResult.caught sid pidd nm sh) := by
  cases o with
  | none => cases h
  | some res =>
    cases res with
    | cooldown => cases h
    | noSpawn => cases h
    | failed a b => cases h
    | caught sid pidd nm sh => exact ⟨sid, pidd, nm, sh, rfl⟩

theorem runCatches_allCaptured (cfg : Config) (reqs : List CatchReq) :
    ∀ st : EngineState, (∀ t, t ∈ st.spawns → t.capturedBy ≠ none) →
    (∀ res, res ∈ (runCatches cfg st reqs).1 →
      res = some CatchResult.cooldown ∨ res = some CatchResult.noSpawn ∨ res = none)
    ∧ (∀ t, t ∈ (runCatches cfg st reqs).2.spawns → t.capturedBy ≠ none) := by
  induction reqs with
  | nil =>
    intro st hcap
    exact ⟨fun res h => absurd h (List.not_mem_nil res), hcap⟩
  | cons r rs ih =>
    intro st hcap
    have hnone := activeJoin_none_of_captured st.catalog r.nowMs st.spawns hcap
    have hrw : runCatches cfg st (r :: rs) =
        ((attemptCatch cfg st r.userId r.ball r.nowMs r.roll r.shinyRoll r.err).1 ::
          (runCatches cfg
            (attemptCatch cfg st r.userId r.ball r.nowMs r.roll r.shinyRoll r.err).2 rs).1,
         (runCatches cfg
            (attemptCatch cfg st r.userId r.ball r.nowMs r.roll r.shinyRoll r.err).2 rs).2) :=
      rfl
    rcases attemptCatch_cases cfg st r.userId r.ball r.nowMs r.roll r.shinyRoll r.err with
      ⟨_, heq⟩ | ⟨_, _, heq⟩ | ⟨_, _, _, heq⟩ | ⟨s, p, _, _, hact, _, _, _⟩ |
      ⟨s, p, _, _, hact, _, _⟩ | ⟨s, p, _, _, hact, _, _, _⟩
    · refine ⟨?_, ?_⟩
      · intro res hres
        rw [hrw, heq] at hres
        rcases List.mem_cons.mp hres with h | h
        · exact Or.inl h
        · exact (ih st hcap).1 res h
      · intro t htm
        rw [hrw, heq] at htm
        exact (ih st hcap).2 t htm
    · refine ⟨?_, ?_⟩
      · intro res hres
        rw [hrw, heq] at hres
        rcases List.mem_cons.mp hres with h | h
        · exact Or.inr (Or.inr h)
        · exact (ih st hcap).1 res h
      · intro t htm
        rw [hrw, heq] at htm
        exact (ih st hcap).2 t htm
    · refine ⟨?_, ?_⟩
      · intro res hres
        rw [hrw, heq] at hres
        rcases List.mem_cons.mp hres with h | h
        · exact Or.inr (Or.inl h)
        · exact (ih { st with cooldowns := setCooldown st.cooldowns r.userId r.nowMs }
            hcap).1 res h
      · intro t htm
        rw [hrw, heq] at htm
        exact (ih { st with cooldowns := setCooldown st.cooldowns r.userId r.nowMs }
          hcap).2 t htm
    · rw [hnone] at hact; cases hact
    · rw [hnone] at hact; cases hact
    · rw [hnone] at hact; cases hact

theorem runCatches_one_spawn (cfg : Config) (reqs : List CatchReq) :
    ∀ (st : EngineState) (s₀ : Spawn), st.spawns = [s₀] →
    ((runCatches cfg st reqs).1.countP isCaughtRes ≤ 1)
    ∧ (∀ pre x post, (runCatches cfg st reqs).1 = pre ++ x :: post →
        isCaughtRes x = true → ∀ res, res ∈ post →
          res = some CatchResult.cooldown ∨ res = some CatchResult.noSpawn ∨ res = none) := by
  induction reqs with
  | nil =>
    intro st s₀ hsp
    constructor
    · simp [runCatches]
    · intro pre x post h
      cases pre <;> simp [runCatches] at h
  | cons r rs ih =>
    intro st s₀ hsp
    have hrw : (runCatches cfg st (r :: rs)).1 =
        (attemptCatch cfg st r.userId r.ball r.nowMs r.roll r.shinyRoll r.err).1 ::
          (runCatches cfg
            (attemptCatch cfg st r.userId r.ball r.nowMs r.roll r.shinyRoll r.err).2 rs).1 :=
      rfl
    cases hc : isCaughtRes
        (attemptCatch cfg st r.userId r.ball r.nowMs r.roll r.shinyRoll r.err).1 with
    | false =>
      have hsp' : (attemptCatch cfg st r.userId r.ball r.nowMs r.roll
          r.shinyRoll r.err).2.spawns = [s₀] := by
        rw [attemptCatch_spawns_of_not_caught cfg st r.userId r.ball r.nowMs r.roll
          r.shinyRoll r.err hc, hsp]
      obtain ⟨ihc, ihd⟩ := ih
        (attemptCatch cfg st r.userId r.ball r.nowMs r.roll r.shinyRoll r.err).2 s₀ hsp'
      constructor
      · rw [hrw, List.countP_cons, hc]
        simpa using ihc
      · intro pre x post h hx res hres
        rw [hrw] at h
        cases pre with
        | nil =>
          rw [List.nil_append] at h
          obtain ⟨h1, h2⟩ := List.cons.inj h
          rw [← h1] at hx
          rw [hx] at hc; cases hc
        | cons y pre' =>
          rw [List.cons_append] at h
          obtain ⟨_, h2⟩ := List.cons.inj h
          exact ihd pre' x post h2 hx res hres
    | true =>
      obtain ⟨sid, pidd, nm, sh, hr⟩ := isCaughtRes_eq_true _ hc
      obtain ⟨s, p, hact, hcap, hexp, hsid, hus, hspawns⟩ :=
        attemptCatch_caught_shape cfg st r.userId r.ball r.nowMs r.roll
          r.shinyRoll r.err sid pidd nm sh hr
      obtain ⟨hsmem, _, _⟩ := activeJoin_some st.catalog r.nowMs st.spawns s p hact
      have hs0 : s = s₀ := by
        rw [hsp] at hsmem
        simpa using hsmem
      have hcap' : ∀ t, t ∈ (attemptCatch cfg st r.userId r.ball r.nowMs r.roll
          r.shinyRoll r.err).2.spawns → t.capturedBy ≠ none := by
        rw [hspawns, hsp, hs0, markCaptured_singleton]
        intro t htm
        rw [List.mem_singleton] at htm
        rw [htm]
        simp
      have hall := runCatches_allCaptured cfg rs
        (attemptCatch cfg st r.userId r.ball r.nowMs r.roll r.shinyRoll r.err).2 hcap'
      constructor
      · rw [hrw, List.countP_cons, hc]
        have h0 : (runCatches cfg (attemptCatch cfg st r.userId r.ball r.nowMs r.roll
            r.shinyRoll r.err).2 rs).1.countP isCaughtRes = 0 := by
          rw [List.countP_eq_zero]
          intro a ha
          rcases hall.1 a ha with h | h | h <;> rw [h] <;> simp [isCaughtRes]
        rw [h0]
        simp
      · intro pre x post h hx res hres
        rw [hrw] at h
        cases pre with
        | nil =>
          rw [List.nil_append] at h
          obtain ⟨h1, h2⟩ := List.cons.inj h
          rw [← h2] at hres
          exact hall.1 res hres
        | cons y pre' =>
          rw [List.cons_append] at h
          obtain ⟨_, h2⟩ := List.cons.inj h
          have hxmem : x ∈ (runCatches cfg (attemptCatch cfg st r.userId r.ball r.nowMs
              r.roll r.shinyRoll r.err).2 rs).1 := by
            rw [h2]
            exact List.mem_append_right _ (List.mem_cons_self _ _)
          rcases hall.1 x hxmem with h | h | h <;> rw [h] at hx <;> cases hx

/-! ### C1 — spawn lifecycle and the catch race -/

/-- An attempt by alice at 10000 ms that misses its roll (0.999). -/
def cReqFail : CatchReq :=
  { userId := "alice", ball := "pokeball", nowMs := 10000, roll := 999/1000,
    shinyRoll := 1/2, err := false }

/-- An attempt by bob at 10000 ms that wins its roll (0). -/
def cReqWin : CatchReq :=
  { userId := "bob", ball := "pokeball", nowMs := 10000, roll := 0,
    shinyRoll := 1/2, err := false }

/-- **C1 (amended).** Every spawn transitions only Active → Captured (via an
`attemptCatch` that wins its roll, which writes captor and capture time
into the locked active row — and which additionally requires the
participant to already have a `users` row, since `spawns.captured_by`
references `users(id)` and the capturing `UPDATE` precedes the `users`
upsert; a winning attempt by an unknown participant instead aborts with an
error and changes nothing) or Active → Expired (time passing `expiry`, or
the administrative clear forcing `expiry = now`); both are terminal — no
engine operation modifies a captured or expired spawn. For any sequence of
`attemptCatch` calls against one active spawn, at most one call returns
success, and every call made after the capture returns reason `cooldown` or
`no_spawn` (or aborts with an error) — never a second success; non-winning
calls may also return `cooldown` or `failed`. -/
theorem spawn_lifecycle (cfg : Config) (st : EngineState) :
    (∀ userId ball nowMs roll shinyRoll err t,
      (st.spawns.map Spawn.id).Nodup → t ∈ st.spawns →
      (t.capturedBy ≠ none ∨ t.expiresAt ≤ nowMs) →
      t ∈ (attemptCatch cfg st userId ball nowMs roll shinyRoll err).2.spawns)
    ∧ (∀ pokemonId now newId pick t, t ∈ st.spawns →
        t ∈ (spawnOnce cfg st pokemonId now newId pick).2.spawns)
    ∧ (∀ now t, t ∈ st.spawns →
        (isActive now t = false → t ∈ clearSpawns now st.spawns)
        ∧ (isActive now t = true → { t with expiresAt := now } ∈ clearSpawns now st.spawns))
    ∧ (∀ userId ball nowMs roll shinyRoll err sid pidd nm sh,
        (attemptCatch cfg st userId ball nowMs roll shinyRoll err).1
          = some (CatchResult.caught sid pidd nm sh) →
        ∃ s p, activeJoin st.catalog nowMs st.spawns = some (s, p)
          ∧ s.capturedBy = none ∧ nowMs < s.expiresAt ∧ sid = s.id
          ∧ st.users userId = true
          ∧ (attemptCatch cfg st userId ball nowMs roll shinyRoll err).2.spawns
              = markCaptured st.spawns s.id userId nowMs)
    ∧ (∀ s₀, st.spawns = [s₀] → ∀ reqs : List CatchReq,
        ((runCatches cfg st reqs).1.countP isCaughtRes ≤ 1)
        ∧ (∀ pre x post, (runCatches cfg st reqs).1 = pre ++ x :: post →
            isCaughtRes x = true → ∀ res, res ∈ post →
              res = some CatchResult.cooldown ∨ res = some CatchResult.noSpawn
                ∨ res = none)) := by
  refine ⟨?_, ?_, ?_, ?_, ?_⟩
  · intro userId ball nowMs roll shinyRoll err t hnd ht hterm
    exact attemptCatch_preserves_terminal cfg st userId ball nowMs roll shinyRoll err
      hnd t ht hterm
  · intro pokemonId now newId pick t ht
    rcases spawnOnce_spawns_shape cfg st pokemonId now newId pick with h | ⟨sp, h⟩
    · rw [h]; exact ht
    · rw [h]; exact List.mem_cons_of_mem _ ht
  · intro now t ht
    constructor
    · intro hf
      have hkeep : (if isActive now t then { t with expiresAt := now } else t) = t := by
        rw [hf]
        simp
      exact hkeep ▸ List.mem_map_of_mem _ ht
    · intro htr
      have hupd : (if isActive now t then { t with expiresAt := now } else t)
          = { t with expiresAt := now } := by
        rw [htr]
        simp
      exact hupd ▸ List.mem_map_of_mem _ ht
  · intro userId ball nowMs roll shinyRoll err sid pidd nm sh h
    exact attemptCatch_caught_shape cfg st userId ball nowMs roll shinyRoll err
      sid pidd nm sh h
  · intro s₀ hsp reqs
    exact runCatches_one_spawn cfg reqs st s₀ hsp

/-- Witness for the amended C1: against the single active Bulbasaur spawn,
the failed-then-caught request pair produces exactly one success, and the
clear action leaves the already-expired record untouched at time 30000. -/
theorem spawn_lifecycle_witness :
    ((runCatches cCfg cSt [cReqFail, cReqWin]).1.countP isCaughtRes ≤ 1)
    ∧ cSpawn ∈ clearSpawns 30000 cSt.spawns := by
  have h := spawn_lifecycle cCfg cSt
  refine ⟨(h.2.2.2.2 cSpawn rfl [cReqFail, cReqWin]).1, ?_⟩
  exact (h.2.2.1 30000 cSpawn (List.mem_cons_self _ _)).1 rfl

/-! ### Outbound delivery queue (`createChatSender` in `src/server.js`) -/

/-- One HTTP response of the chat-send call: status code and the value of
the retry-after header when present (in seconds, possibly fractional). -/
structure HttpResponse where
  status : Nat
  retryAfter : Option Rat
deriving Repr

/-- The 429 wait of `sendNow`:
`Math.min(10000, Math.max(1000, retryAfter * 1000))` with the header
defaulting to 2. -/
def rateLimitWaitMs (retryAfter : Option Rat) : Rat :=
  min 10000 (max 1000 ((retryAfter.getD 2) * 1000))

/-- Observable actions of one queue run, in order. -/
inductive SendEvent where
  | attemptStart : Nat → SendEvent
  | rateWait : Rat → SendEvent
  | tokenRefresh : SendEvent
  | backoff : Nat → SendEvent
  | droppedLog : SendEvent
  | spacing : SendEvent
deriving Repr, DecidableEq

/-- `sendNow(text)` given the response of the external POST: 429 waits the
clamped retry delay then throws `rate_limited`; 401 refreshes the
credential then throws `unauthorized_retry`; any other non-2xx throws; a
2xx returns true. The result is (delivered?, events inside `sendNow`). -/
def sendNow (r : HttpResponse) : Bool × List SendEvent :=
  if r.status = 429 then (false, [SendEvent.rateWait (rateLimitWaitMs r.retryAfter)])
  else if r.status = 401 then (false, [SendEvent.tokenRefresh])
  else if r.status < 200 ∨ 300 ≤ r.status then (false, [])
  else (true, [])

/-- The retry loop of `pump` for one dequeued message:
`while (attempts < 3) { attempts += 1; try { sendNow; break } catch {
backoff min(8000, 500 * 2^attempts); if (attempts >= 3) log drop } }`.
`resp n` is the response the network returns to attempt `n`. Returns the
final attempt counter, whether the message was delivered, and the events. -/
def attemptLoop (resp : Nat → HttpResponse) (attempts : Nat) :
    Nat × Bool × List SendEvent :=
  if h : attempts < 3 then
    let n := attempts + 1
    let r := sendNow (resp n)
    if r.1 then (n, true, SendEvent.attemptStart n :: r.2)
    else
      let d := min 8000 (500 * 2 ^ n)
      let dropEv : List SendEvent := if 3 ≤ n then [SendEvent.droppedLog] else []
      let rest := attemptLoop resp n
      (rest.1, rest.2.1,
        (SendEvent.attemptStart n :: r.2 ++ SendEvent.backoff d :: dropEv) ++ rest.2.2)
  else (attempts, false, [])
termination_by 3 - attempts
decreasing_by simp_wf; omega

/-- Processing of one dequeued message (the loop enters with `attempts = 0`). -/
def deliverMsg (resp : Nat → HttpResponse) : Nat × Bool × List SendEvent :=
  attemptLoop resp 0

/-- `pump()`: drain the queue one message at a time, 350 ms spacing after
each message regardless of outcome, never stopping on a dropped message. -/
def pump (msgs : List (Nat → HttpResponse)) : List (Nat × Bool) × List SendEvent :=
  match msgs with
  | [] => ([], [])
  | m :: rest =>
    let d := deliverMsg m
    let r := pump rest
    (((d.1, d.2.1)) :: r.1, (d.2.2 ++ [SendEvent.spacing]) ++ r.2)

theorem attemptLoop_stop (resp : Nat → HttpResponse) (a : Nat) (h : ¬ a < 3) :
    attemptLoop resp a = (a, false, []) := by
  rw [attemptLoop, dif_neg h]

theorem attemptLoop_succ_true (resp : Nat → HttpResponse) (a : Nat) (h : a < 3)
    (hs : (sendNow (resp (a + 1))).1 = true) :
    attemptLoop resp a = (a + 1, true,
      SendEvent.attemptStart (a + 1) :: (sendNow (resp (a + 1))).2) := by
  rw [attemptLoop, dif_pos h]
  simp only [hs, if_true]

theorem attemptLoop_succ_false (resp : Nat → HttpResponse) (a : Nat) (h : a < 3)
    (hs : (sendNow (resp (a + 1))).1 = false) :
    attemptLoop resp a = ((attemptLoop resp (a + 1)).1, (attemptLoop resp (a + 1)).2.1,
      (SendEvent.attemptStart (a + 1) :: (sendNow (resp (a + 1))).2
        ++ SendEvent.backoff (min 8000 (500 * 2 ^ (a + 1))) ::
          (if 3 ≤ a + 1 then [SendEvent.droppedLog] else []))
      ++ (attemptLoop resp (a + 1)).2.2) := by
  rw [attemptLoop, dif_pos h]
  simp only [hs, Bool.false_eq_true, if_false]

theorem attemptLoop_le (resp : Nat → HttpResponse) :
    ∀ m a, 3 - a ≤ m → a ≤ 3 → (attemptLoop resp a).1 ≤ 3 := by
  intro m
  induction m with
  | zero =>
    intro a h0 ha
    rw [attemptLoop_stop resp a (by omega)]
    exact ha
  | succ k ihk =>
    intro a hk ha
    by_cases h : a < 3
    · cases hs : (sendNow (resp (a + 1))).1 with
      | true =>
        rw [attemptLoop_succ_true resp a h hs]
        show a + 1 ≤ 3
        omega
      | false =>
        rw [attemptLoop_succ_false resp a h hs]
        show (attemptLoop resp (a + 1)).1 ≤ 3
        exact ihk (a + 1) (by omega) (by omega)
    · rw [attemptLoop_stop resp a h]
      exact ha

/-! ### C5 — bounded retries, rate-limit clamp, refresh on 401, drop and go on -/

/-- **C5.** The delivery queue attempts each dequeued message at most 3
times; a 429 waits the server-provided retry delay clamped to
[1000 ms, 10000 ms] and that attempt counts against the limit; a 401
triggers a credential refresh before the next attempt; after the third
failed attempt the message is dropped and logged and the queue continues
with the next message. -/
theorem delivery_queue_spec :
    (∀ resp : Nat → HttpResponse, (deliverMsg resp).1 ≤ 3)
    ∧ (∀ h : Option Rat, (1000 : Rat) ≤ rateLimitWaitMs h ∧ rateLimitWaitMs h ≤ 10000)
    ∧ (∀ r : HttpResponse, r.status = 429 →
        sendNow r = (false, [SendEvent.rateWait (rateLimitWaitMs r.retryAfter)]))
    ∧ (∀ r : HttpResponse, r.status = 401 →
        sendNow r = (false, [SendEvent.tokenRefresh]))
    ∧ (∀ resp : Nat → HttpResponse, (resp 1).status = 401 →
        (deliverMsg resp).2.2 = SendEvent.attemptStart 1 :: SendEvent.tokenRefresh ::
          SendEvent.backoff 1000 :: (attemptLoop resp 1).2.2)
    ∧ (∀ resp : Nat → HttpResponse, (resp 1).status = 429 →
        (sendNow (resp 2)).1 = true →
        (deliverMsg resp).1 = 2
        ∧ SendEvent.rateWait (rateLimitWaitMs (resp 1).retryAfter) ∈ (deliverMsg resp).2.2)
    ∧ (∀ resp : Nat → HttpResponse, (sendNow (resp 1)).1 = false →
        (sendNow (resp 2)).1 = false → (sendNow (resp 3)).1 = false →
        (deliverMsg resp).2.1 = false ∧ SendEvent.droppedLog ∈ (deliverMsg resp).2.2)
    ∧ (∀ msgs : List (Nat → HttpResponse), (pump msgs).1.length = msgs.length
        ∧ ∀ e, e ∈ (pump msgs).1 → e.1 ≤ 3) := by
  have hrl : ∀ r : HttpResponse, r.status = 429 →
      sendNow r = (false, [SendEvent.rateWait (rateLimitWaitMs r.retryAfter)]) := by
    intro r h
    unfold sendNow
    rw [if_pos h]
  have hua : ∀ r : HttpResponse, r.status = 401 →
      sendNow r = (false, [SendEvent.tokenRefresh]) := by
    intro r h
    unfold sendNow
    rw [if_neg (by omega), if_pos h]
  refine ⟨fun resp => attemptLoop_le resp 3 0 (by omega) (by omega),
    fun h => ⟨le_min (by norm_num) (le_max_left _ _), min_le_left _ _⟩,
    hrl, hua, ?_, ?_, ?_, ?_⟩
  · intro resp h401
    have hs := hua (resp 1) h401
    have e0 := attemptLoop_succ_false resp 0 (by omega)
      (by rw [show (0 : Nat) + 1 = 1 from rfl, hs])
    rw [show (0 : Nat) + 1 = 1 from rfl] at e0
    rw [show deliverMsg resp = attemptLoop resp 0 from rfl, e0, hs]
    norm_num
  · intro resp h429 hs2
    have hs := hrl (resp 1) h429
    have e0 := attemptLoop_succ_false resp 0 (by omega)
      (by rw [show (0 : Nat) + 1 = 1 from rfl, hs])
    rw [show (0 : Nat) + 1 = 1 from rfl] at e0
    have e1 := attemptLoop_succ_true resp 1 (by omega)
      (by rw [show (1 : Nat) + 1 = 2 from rfl]; exact hs2)
    rw [show (1 : Nat) + 1 = 2 from rfl] at e1
    constructor
    · rw [show deliverMsg resp = attemptLoop resp 0 from rfl, e0, e1]
    · rw [show deliverMsg resp = attemptLoop resp 0 from rfl, e0, hs]
      simp
  · intro resp h1 h2 h3
    have e0 := attemptLoop_succ_false resp 0 (by omega)
      (by rw [show (0 : Nat) + 1 = 1 from rfl]; exact h1)
    rw [show (0 : Nat) + 1 = 1 from rfl] at e0
    have e1 := attemptLoop_succ_false resp 1 (by omega)
      (by rw [show (1 : Nat) + 1 = 2 from rfl]; exact h2)
    rw [show (1 : Nat) + 1 = 2 from rfl] at e1
    have e2 := attemptLoop_succ_false resp 2 (by omega)
      (by rw [show (2 : Nat) + 1 = 3 from rfl]; exact h3)
    rw [show (2 : Nat) + 1 = 3 from rfl] at e2
    have e3 := attemptLoop_stop resp 3 (by omega)
    constructor
    · rw [show deliverMsg resp = attemptLoop resp 0 from rfl, e0, e1, e2, e3]
    · rw [show deliverMsg resp = attemptLoop resp 0 from rfl, e0, e1, e2, e3]
      simp
  · intro msgs
    constructor
    · induction msgs with
      | nil => rfl
      | cons m rest ih => simp [pump, ih]
    · intro e
      induction msgs with
      | nil =>
        intro he
        simp [pump] at he
      | cons m rest ih =>
        intro he
        simp only [pump] at he
        rcases List.mem_cons.mp he with h | h
        · rw [h]
          exact attemptLoop_le m 3 0 (by omega) (by omega)
        · exact ih h

/-- Witness for C5 at a concrete response schedule: 429 then 401 then 200
delivers on the third attempt; three 500s drop the message and the queue
still processes a following message. -/
theorem delivery_queue_spec_witness :
    (deliverMsg (fun n => if n = 1 then { status := 429, retryAfter := some 30 }
      else if n = 2 then { status := 401, retryAfter := none }
      else { status := 200, retryAfter := none })).1 ≤ 3
    ∧ ((1000 : Rat) ≤ rateLimitWaitMs (some 30) ∧ rateLimitWaitMs (some 30) ≤ 10000)
    ∧ sendNow { status := 429, retryAfter := some 30 }
        = (false, [SendEvent.rateWait (rateLimitWaitMs (some 30))])
    ∧ sendNow { status := 401, retryAfter := none }
        = (false, [SendEvent.tokenRefresh])
    ∧ ((pump [fun _ => { status := 500, retryAfter := none },
          fun _ => { status := 200, retryAfter := none }]).1.length = 2) := by
  have h := delivery_queue_spec
  refine ⟨h.1 _, h.2.1 (some 30), h.2.2.1 _ rfl, h.2.2.2.1 _ rfl, (h.2.2.2.2.2.2.2 _).1⟩

/-! ### Credential lifecycle (`src/tokenManager.js`) -/

/-- `getValidAccessToken(pool, clientId, clientSecret)`.

`token` and `expiresAt` are the stored `kick:access_token` and
`kick:access_expires_at` values (epoch ms for the latter), `now` is
`Date.now()`, and `refresh` is the outcome of the `refreshAccessToken`
call if one is made (`.ok t` a fresh token, `.error ()` the call threw).
The result pairs whether a refresh was attempted with the outcome
(`.error ()` means the function itself throws). The refresh-before margin
is 60 s (`REFRESH_BEFORE_MS`). -/
def getValidAccessToken (token : Option String) (expiresAt : Option Int)
    (now : Int) (refresh : Except Unit String) : Bool × Except Unit String :=
  match token with
  | none => (true, refresh)
  | some t =>
    match expiresAt with
    | none => (true, refresh)
    | some e =>
      if e - now ≤ 60000 then
        match refresh with
        | Except.ok t2 => (true, Except.ok t2)
        | Except.error _ => (true, Except.ok t)
      else (false, Except.ok t)

/-! ### C6 — refresh policy of getValidAccessToken -/

/-- **C6.** `getValidAccessToken` forces a refresh when there is no stored
token or no stored expiry (returning whatever the refresh produces,
errors included); when the stored token is within 60 s of its expiry it
attempts a refresh and, if that refresh call fails, returns the existing
token instead of failing (when it succeeds, the fresh token); otherwise
it returns the stored token unchanged without attempting a refresh. -/
theorem getValidAccessToken_spec (token : Option String) (expiresAt : Option Int)
    (now : Int) (refresh : Except Unit String) :
    (token = none → getValidAccessToken token expiresAt now refresh = (true, refresh))
    ∧ (∀ t, token = some t → expiresAt = none →
        getValidAccessToken token expiresAt now refresh = (true, refresh))
    ∧ (∀ t e, token = some t → expiresAt = some e → e - now ≤ 60000 →
        refresh = Except.error () →
        getValidAccessToken token expiresAt now refresh = (true, Except.ok t))
    ∧ (∀ t e t2, token = some t → expiresAt = some e → e - now ≤ 60000 →
        refresh = Except.ok t2 →
        getValidAccessToken token expiresAt now refresh = (true, Except.ok t2))
    ∧ (∀ t e, token = some t → expiresAt = some e → ¬ e - now ≤ 60000 →
        getValidAccessToken token expiresAt now refresh = (false, Except.ok t)) := by
  refine ⟨?_, ?_, ?_, ?_, ?_⟩
  · intro h
    subst h
    rfl
  · intro t ht he
    subst ht; subst he
    rfl
  · intro t e ht he hm hr
    subst ht; subst he; subst hr
    simp only [getValidAccessToken]
    rw [if_pos hm]
  · intro t e t2 ht he hm hr
    subst ht; subst he; subst hr
    simp only [getValidAccessToken]
    rw [if_pos hm]
  · intro t e ht he hm
    subst ht; subst he
    simp only [getValidAccessToken]
    rw [if_neg hm]

/-- Witness for C6: a token 50 s from expiry falls back to itself when the
refresh throws, and a token 120 s from expiry is returned without any
refresh attempt. -/
theorem getValidAccessToken_spec_witness :
    getValidAccessToken (some "tok") (some 110000) 60000 (Except.error ())
      = (true, Except.ok "tok")
    ∧ getValidAccessToken (some "tok") (some 180000) 60000 (Except.error ())
      = (false, Except.ok "tok")
    ∧ getValidAccessToken none (some 180000) 60000 (Except.ok "fresh")
      = (true, Except.ok "fresh") := by
  have h1 := (getValidAccessToken_spec (some "tok") (some 110000) 60000
    (Except.error ())).2.2.1 "tok" 110000 rfl rfl (by decide) rfl
  have h2 := (getValidAccessToken_spec (some "tok") (some 180000) 60000
    (Except.error ())).2.2.2.2 "tok" 180000 rfl rfl (by decide)
  have h3 := (getValidAccessToken_spec none (some 180000) 60000
    (Except.ok "fresh")).1 rfl
  exact ⟨h1, h2, h3⟩

/-! ### Chat ingestion connector (`src/kickConnector.js`) — reconnect backoff -/

/-- Connector state: the reconnect attempt counter. -/
structure ConnState where
  attempts : Nat
deriving Repr, DecidableEq

/-- The delay computed by `reconnect()` for a given (already incremented)
attempt counter and jitter draw: `exp = min(attempts, 6)`,
`base = 1000 * 2^exp`, `delay = min(30000, base + jitter)`, where the code
draws `jitter = floor(random() * 400)`, hence `jitter < 400`. -/
def reconnectDelay (attempts jitter : Nat) : Nat :=
  min 30000 (1000 * 2 ^ (min attempts 6) + jitter)

/-- `reconnect()` increments the attempt counter (before computing the delay). -/
def dropStep (s : ConnState) : ConnState := { attempts := s.attempts + 1 }

/-- The websocket open handler resets the attempt counter to zero. -/
def openStep (_ : ConnState) : ConnState := { attempts := 0 }

theorem reconnectDelay_mono (n j1 j2 : Nat) (hj : j1 < 400) :
    reconnectDelay n j1 ≤ reconnectDelay (n + 1) j2 := by
  unfold reconnectDelay
  by_cases h4 : n ≤ 4
  · have e1 : min n 6 = n := Nat.min_eq_left (by omega)
    have e2 : min (n + 1) 6 = n + 1 := Nat.min_eq_left (by omega)
    rw [e1, e2]
    interval_cases n <;> norm_num <;> omega
  · by_cases h6 : 6 ≤ n
    · have e1 : min n 6 = 6 := Nat.min_eq_right h6
      have e2 : min (n + 1) 6 = 6 := Nat.min_eq_right (by omega)
      rw [e1, e2]
      norm_num
      omega
    · have hn5 : n = 5 := by omega
      subst hn5
      norm_num
      omega

/-! ### C8 — reconnect backoff: cap, reset, monotone delays -/

/-- **C8.** Reconnect delays use exponential backoff
(`min(30000, 1000 * 2^min(attempts, 6) + jitter)` with jitter below
400 ms): every delay is at most the 30 s cap, the attempt counter resets
to zero on a successful connection, and the three delays computed for
three consecutive drops form a non-decreasing sequence for all jitter
draws. -/
theorem reconnect_backoff_spec :
    (∀ a j, reconnectDelay a j ≤ 30000)
    ∧ (∀ s : ConnState, (openStep s).attempts = 0)
    ∧ (∀ (s : ConnState) (j1 j2 j3 : Nat), j1 < 400 → j2 < 400 → j3 < 400 →
        reconnectDelay (dropStep s).attempts j1
          ≤ reconnectDelay (dropStep (dropStep s)).attempts j2
        ∧ reconnectDelay (dropStep (dropStep s)).attempts j2
          ≤ reconnectDelay (dropStep (dropStep (dropStep s))).attempts j3) := by
  refine ⟨fun a j => min_le_left _ _, fun s => rfl, ?_⟩
  intro s j1 j2 j3 h1 h2 h3
  exact ⟨reconnectDelay_mono _ _ _ h1, reconnectDelay_mono _ _ _ h2⟩

/-- Witness for C8: from a fresh connection, the first two drop delays are
non-decreasing for the extreme jitters, and an open resets a counter of 7. -/
theorem reconnect_backoff_spec_witness :
    (openStep { attempts := 7 }).attempts = 0
    ∧ reconnectDelay (dropStep { attempts := 0 }).attempts 399
        ≤ reconnectDelay (dropStep (dropStep { attempts := 0 })).attempts 0 := by
  have h := reconnect_backoff_spec
  exact ⟨h.2.1 { attempts := 7 },
    (h.2.2 { attempts := 0 } 399 0 0 (by decide) (by decide) (by decide)).1⟩

/-! ### Chat ingestion connector — inbound frame handling

JSON values as the websocket handler sees them. Numbers are modelled as
`Int`: only their truthiness and stringification matter here, and the
frames of interest carry no fractional numerics. -/

inductive Json where
  | null : Json
  | bool : Bool → Json
  | num : Int → Json
  | str : String → Json
  | arr : List Json → Json
  | obj : List (String × Json) → Json
deriving Repr

/-- JavaScript truthiness of a value (`undefined` is handled by `truthyV`). -/
def truthy : Json → Bool
  | Json.null => false
  | Json.bool b => b
  | Json.num n => decide (n ≠ 0)
  | Json.str s => decide (s ≠ "")
  | Json.arr _ => true
  | Json.obj _ => true

/-- Truthiness of a possibly-undefined value. -/
def truthyV : Option Json → Bool
  | none => false
  | some j => truthy j

/-- Property access `j[k]`: `undefined` (none) on non-objects and missing
keys. -/
def getField : Json → String → Option Json
  | Json.obj fields, k => (fields.find? (fun p => p.1 = k)).map (fun p => p.2)
  | _, _ => none

/-- Property access through a possibly-undefined base, as guarded by `&&`
in the source (so the base is never dereferenced when falsy). -/
def getV (v : Option Json) (k : String) : Option Json :=
  v.bind (fun j => getField j k)

/-- JavaScript `a || b`. -/
def jsOr (a b : Option Json) : Option Json := if truthyV a then a else b

/-- JavaScript `a && b`. -/
def jsAnd (a b : Option Json) : Option Json := if truthyV a then b else a

mutual

/-- JavaScript `String(x)`: arrays join their elements with commas, with
`null` elements contributing the empty string; objects print
`[object Object]`. -/
def jsToString : Json → String
  | Json.null => "null"
  | Json.bool true => "true"
  | Json.bool false => "false"
  | Json.num n => toString n
  | Json.str s => s
  | Json.arr xs => String.intercalate "," (arrElems xs)
  | Json.obj _ => "[object Object]"

/-- Element-wise stringification inside `Array.prototype.join`. -/
def arrElems : List Json → List String
  | [] => []
  | Json.null :: rest => "" :: arrElems rest
  | x :: rest => jsToString x :: arrElems rest

end

/-- `payload.content || payload.message || payload.text || payload.body`. -/
def extractContent (payload : Json) : Option Json :=
  jsOr (jsOr (jsOr (getField payload "content") (getField payload "message"))
    (getField payload "text")) (getField payload "body")

/-- `(payload.sender && payload.sender.username) ||
(payload.user && payload.user.username) || payload.user ||
payload.displayName`. -/
def extractUsername (payload : Json) : Option Json :=
  jsOr (jsOr (jsOr
      (jsAnd (getField payload "sender") (getV (getField payload "sender") "username"))
      (jsAnd (getField payload "user") (getV (getField payload "user") "username")))
    (getField payload "user"))
    (getField payload "displayName")

/-- The websocket message handler of `connect` in `src/kickConnector.js`.

`jparse` is the `try JSON.parse catch null` helper (`none` = parse error);
`raw` is the frame text. The result is the `(username, content)` pair
passed to the registered `onMessage` handler, or `none` when the frame is
discarded. Every parse step is guarded, so the function is total: no
malformed payload propagates an error. -/
def handleFrame (jparse : String → Option Json) (raw : String) :
    Option (String × String) :=
  match jparse raw with
  | none => none
  | some outer =>
    if truthy outer = false then none
    else
      let payload : Option Json :=
        match getField outer "data" with
        | some (Json.str s) => jparse s
        | v => v
      match payload with
      | none => none
      | some p =>
        if truthy p = false then none
        else
          let content := extractContent p
          let username := extractUsername p
          if truthyV content && truthyV username then
            some (jsToString (username.getD Json.null),
              jsToString (content.getD Json.null))
          else none

/-! ### C7 — defensive parsing of inbound frames -/

/-- A frame whose payload carries `content: []` — truthy in JavaScript,
yet stringifying to the empty string. -/
def cFrameOuter : Json :=
  Json.obj [("data", Json.obj [("content", Json.arr []),
    ("sender", Json.obj [("username", Json.str "bob")])])]

/-- A parser recognizing exactly the frame above. -/
def cJparse : String → Option Json :=
  fun s => if s = "frame" then some cFrameOuter else none

/-- **C7 is partly false as stated**: the handler is invoked for a frame
that contains no message text at all. The payload
`{content: [], sender: {username: "bob"}}` has a truthy `content` (an
empty array), so the guard passes and `onMessage` receives
`String([]) = ""` as the message text. -/
theorem message_handler_cex :
    handleFrame cJparse "frame" = some ("bob", "")
    ∧ ("bob", "").2 = "" := ⟨rfl, rfl⟩

/-- **C7 (amended).** The message handler never propagates an error on
malformed payloads — an unparseable frame, a falsy parse result, or a
payload failing the guard is discarded with no handler call — and it
invokes the registered handler only when the fallback field extraction
yields truthy `content` and sender values; whenever those values are
strings this means a non-empty sender identity and non-empty message
text, but a truthy non-string field (such as an empty array) is
stringified and can reach the handler as empty text. -/
theorem message_handler_guard :
    (∀ (jparse : String → Option Json) (raw : String), jparse raw = none →
      handleFrame jparse raw = none)
    ∧ (∀ (jparse : String → Option Json) (raw : String) (outer : Json),
        jparse raw = some outer → truthy outer = false →
        handleFrame jparse raw = none)
    ∧ (∀ (jparse : String → Option Json) (raw : String) (u c : String),
        handleFrame jparse raw = some (u, c) →
        ∃ payload cv uv, truthy payload = true
          ∧ extractContent payload = some cv ∧ truthy cv = true ∧ c = jsToString cv
          ∧ extractUsername payload = some uv ∧ truthy uv = true ∧ u = jsToString uv
          ∧ (∀ s, cv = Json.str s → c = s ∧ s ≠ "")
          ∧ (∀ s, uv = Json.str s → u = s ∧ s ≠ "")) := by
  refine ⟨?_, ?_, ?_⟩
  · intro jparse raw h
    unfold handleFrame
    rw [h]
  · intro jparse raw outer hj ho
    unfold handleFrame
    rw [hj]
    dsimp only
    rw [if_pos ho]
  · intro jparse raw u c
    unfold handleFrame
    cases hj : jparse raw with
    | none => intro h; cases h
    | some outer =>
      dsimp only
      by_cases ho : truthy outer = false
      · rw [if_pos ho]; intro h; cases h
      · rw [if_neg ho]
        cases hp : (match getField outer "data" with
            | some (Json.str s) => jparse s
            | v => v) with
        | none => intro h; cases h
        | some p =>
          dsimp only
          by_cases hpt : truthy p = false
          · rw [if_pos hpt]; intro h; cases h
          · rw [if_neg hpt]
            have hptrue : truthy p = true := by
              revert hpt
              cases truthy p <;> simp
            cases hg : truthyV (extractContent p) && truthyV (extractUsername p) with
            | false =>
              simp only [hg, Bool.false_eq_true, if_false]
              intro h; cases h
            | true =>
              rw [if_pos rfl]
              intro h
              have hg2 := hg
              simp only [Bool.and_eq_true] at hg2
              obtain ⟨hca, hua⟩ := hg2
              cases hcv : extractContent p with
              | none => rw [hcv] at hca; cases hca
              | some cv =>
                cases huv : extractUsername p with
                | none => rw [huv] at hua; cases hua
                | some uv =>
                  rw [hcv] at hca
                  rw [huv] at hua
                  rw [hcv, huv] at h
                  have hpair := Option.some.inj h
                  rw [Prod.mk.injEq] at hpair
                  obtain ⟨hu, hc⟩ := hpair
                  refine ⟨p, cv, uv, hptrue, hcv, hca, hc.symm, huv, hua, hu.symm,
                    ?_, ?_⟩
                  · intro s hs
                    subst hs
                    refine ⟨by rw [← hc]; rfl, ?_⟩
                    have : decide (s ≠ "") = true := hca
                    exact of_decide_eq_true this
                  · intro s hs
                    subst hs
                    refine ⟨by rw [← hu]; rfl, ?_⟩
                    have : decide (s ≠ "") = true := hua
                    exact of_decide_eq_true this

/-- Witness for the amended C7: an unparseable frame and a falsy parse
result are both discarded. -/
theorem message_handler_guard_witness :
    handleFrame (fun _ => none) "junk" = none
    ∧ handleFrame (fun s => if s = "n" then some (Json.num 0) else none) "n"
        = none := by
  have h := message_handler_guard
  exact ⟨h.1 (fun _ => none) "junk" rfl,
    h.2.1 (fun s => if s = "n" then some (Json.num 0) else none) "n"
      (Json.num 0) rfl rfl⟩

end Pokebot
